import Mathlib

/-!
Verification of the session and key-enumeration layer of the nethsm-pkcs11
provider (`src/pkcs11/src/backend/session.rs`), shallowly embedded in Lean.

Rust strings are modelled as lists of bytes (`Str`); the remote key service
(the `openapi` client, an external collaborator) is modelled as an oracle
carried in the slot configuration; every operation additionally returns the
list of remote calls it performed so that "no remote call is made" claims
can be stated.  Machine integers (`CK_RV`, `CK_ULONG`, handles) are modelled
as `Nat`: none of the verified operations can overflow a 64-bit counter in
any execution reachable within the claims' scope, and the source performs no
wrap-around arithmetic on them.
-/

namespace NetHsm

/-! Constants from `cryptoki_sys`, with their exact PKCS#11 numeric values. -/

def CKR_OK : Nat := 0x00

def CKR_ARGUMENTS_BAD : Nat := 0x07

def CKR_DEVICE_ERROR : Nat := 0x30

def CKR_OPERATION_ACTIVE : Nat := 0x90

def CKS_RO_PUBLIC_SESSION : Nat := 0

def CKA_ID : Nat := 0x102

def CKA_LABEL : Nat := 0x3

/-- A Rust `String` / byte buffer, as its list of bytes. -/
abbrev Str := List Nat

/-- Whether `b1` is a UTF-8 continuation byte (`0x80 ..= 0xBF`). -/
def isCont (b1 : Nat) : Bool := 0x80 ≤ b1 && b1 ≤ 0xBF

/-- UTF-8 validity of a byte sequence, the check performed by Rust's
`String::from_utf8` (table from RFC 3629: surrogates and values above
U+10FFFF excluded, overlong encodings rejected). -/
def utf8Valid : List Nat → Bool
  | [] => true
  | b :: rest =>
    if b ≤ 0x7F then utf8Valid rest
    else if 0xC2 ≤ b && b ≤ 0xDF then
      match rest with
      | b1 :: r => isCont b1 && utf8Valid r
      | [] => false
    else if b = 0xE0 then
      match rest with
      | b1 :: b2 :: r => (0xA0 ≤ b1 && b1 ≤ 0xBF) && isCont b2 && utf8Valid r
      | _ => false
    else if (0xE1 ≤ b && b ≤ 0xEC) || b = 0xEE || b = 0xEF then
      match rest with
      | b1 :: b2 :: r => isCont b1 && isCont b2 && utf8Valid r
      | _ => false
    else if b = 0xED then
      match rest with
      | b1 :: b2 :: r => (0x80 ≤ b1 && b1 ≤ 0x9F) && isCont b2 && utf8Valid r
      | _ => false
    else if b = 0xF0 then
      match rest with
      | b1 :: b2 :: b3 :: r =>
        (0x90 ≤ b1 && b1 ≤ 0xBF) && isCont b2 && isCont b3 && utf8Valid r
      | _ => false
    else if 0xF1 ≤ b && b ≤ 0xF3 then
      match rest with
      | b1 :: b2 :: b3 :: r => isCont b1 && isCont b2 && isCont b3 && utf8Valid r
      | _ => false
    else if b = 0xF4 then
      match rest with
      | b1 :: b2 :: b3 :: r =>
        (0x80 ≤ b1 && b1 ≤ 0x8F) && isCont b2 && isCont b3 && utf8Valid r
      | _ => false
    else false

/-- One raw attribute of a PKCS#11 template (`CkRawAttr`): a type code and
the optional raw value bytes (`val_bytes` is `None` when the entry carries a
null pointer / invalid length). -/
structure CkRawAttr where
  type_ : Nat
  val_bytes : Option Str
  deriving DecidableEq, Repr

/-- A raw attribute template (`CkRawAttrTemplate`), iterated in order. -/
abbrev CkRawAttrTemplate := List CkRawAttr

/-- `parse_str_from_attr`: the value bytes must be present and valid UTF-8,
otherwise the parse fails with `CKR_ARGUMENTS_BAD`.  On success Rust returns
the bytes themselves viewed as a `String`, so the model returns the bytes. -/
def parse_str_from_attr (attr : CkRawAttr) : Except Nat Str :=
  match attr.val_bytes with
  | none => .error CKR_ARGUMENTS_BAD
  | some bytes =>
    if utf8Valid bytes then .ok bytes else .error CKR_ARGUMENTS_BAD

/-- The scan loop of `find_key_id`, with the mutable `key_id` candidate made
explicit: an `CKA_ID` entry parses, overwrites the candidate and breaks out
of the loop; a `CKA_LABEL` entry parses and overwrites the candidate; any
parse failure aborts the whole scan. -/
def find_key_id_loop : List CkRawAttr → Option Str → Except Nat (Option Str)
  | [], key_id => .ok key_id
  | attr :: rest, key_id =>
    if attr.type_ = CKA_ID then
      match parse_str_from_attr attr with
      | .ok s => .ok (some s)
      | .error e => .error e
    else if attr.type_ = CKA_LABEL then
      match parse_str_from_attr attr with
      | .ok s => find_key_id_loop rest (some s)
      | .error e => .error e
    else
      find_key_id_loop rest key_id

/-- `find_key_id`: extract the search-key string from an optional attribute
template; an absent template yields no filter. -/
def find_key_id (template : Option CkRawAttrTemplate) : Except Nat (Option Str) :=
  match template with
  | some template => find_key_id_loop template none
  | none => .ok none

/-- Modelled from the spec: the full key record returned by the remote
`get key by id` operation (the `openapi` crate's key-data type is not under
`src/`); its contents are opaque to this layer, so it is a bare payload. -/
def KeyData := Nat

instance : DecidableEq KeyData := fun a b => Nat.decEq a b

instance (n : Nat) : OfNat KeyData n := ⟨n⟩

/-- Modelled from the spec: a locally cached key object
(`db::object::Object`, whose module is not under `src/`): the local
representation of one remote key record, tagged with its key id. -/
structure Object where
  key_data : KeyData
  key_id : Str
  deriving DecidableEq

/-- Modelled from the spec: `Object::from_key_data` converts a remote key
record into a cached object. -/
def Object.from_key_data (key_data : KeyData) (key_id : Str) : Object :=
  ⟨key_data, key_id⟩

/-- Modelled from the spec: the per-session Object Cache (`Db`, whose module
is not under `src/`): a mapping from freshly assigned object handles to
cached objects, enumerated in insertion order, supporting clear and insert
with a brand-new handle on every insert. -/
structure Db where
  objects : List (Nat × Object)
  next_object_handle : Nat
  deriving DecidableEq

/-- Modelled from the spec: `Db::new`, the empty cache. -/
def Db.new : Db := ⟨[], 0⟩

/-- Modelled from the spec: `Db::clear` empties the cache. -/
def Db.clear (d : Db) : Db := { d with objects := [] }

/-- Modelled from the spec: `Db::add_object` inserts under a fresh handle
and returns that handle. -/
def Db.add_object (d : Db) (o : Object) : Nat × Db :=
  (d.next_object_handle,
   ⟨d.objects ++ [(d.next_object_handle, o)], d.next_object_handle + 1⟩)

/-- Modelled from the spec: `Db::enumerate` lists the (handle, object) pairs
in cache (insertion) order. -/
def Db.enumerate (d : Db) : List (Nat × Object) := d.objects

/-- The remote key service (external collaborator, reached through the
slot's `api_config`): the outcome of its `keys_get` listing and of
`keys_key_id_get` for each id, `none` meaning the call fails. -/
structure Api where
  keys_get : Option (List Str)
  keys_key_id_get : Str → Option KeyData

/-- Slot configuration: the opaque token used to reach the remote key
service, modelled as the service oracle itself. -/
structure Slot where
  api_config : Api

/-- A record of one remote call, for stating "no remote call is made". -/
inductive ApiCall where
  | keys_get : ApiCall
  | keys_key_id_get : Str → ApiCall
  deriving DecidableEq, Repr

/-- `SignCtx` (empty marker struct in the source). -/
structure SignCtx where
  deriving DecidableEq

/-- `EncryptCtx` (empty marker struct in the source). -/
structure EncryptCtx where
  deriving DecidableEq

/-- `DecryptCtx` (empty marker struct in the source). -/
structure DecryptCtx where
  deriving DecidableEq

/-- `EnumCtx`: the search context, an ordered list of object handles. -/
structure EnumCtx where
  handles : List Nat
  deriving DecidableEq

/-- `Session`: one caller connection bound to one slot. -/
structure Session where
  slot_id : Nat
  slot : Slot
  flags : Nat
  state : Nat
  device_error : Nat
  fetched_all_keys : Bool
  db : Db
  sign_ctx : Option SignCtx
  encrypt_ctx : Option EncryptCtx
  decrypt_ctx : Option DecryptCtx
  enum_ctx : Option EnumCtx

/-- `Session::new`. -/
def Session.new (slot_id : Nat) (slot : Slot) (flags : Nat) : Session :=
  { slot := slot
    slot_id := slot_id
    flags := flags
    state := CKS_RO_PUBLIC_SESSION
    fetched_all_keys := false
    db := Db.new
    device_error := CKR_OK
    sign_ctx := none
    encrypt_ctx := none
    decrypt_ctx := none
    enum_ctx := none }

/-- `CK_SESSION_INFO`. -/
structure CK_SESSION_INFO where
  slotID : Nat
  state : Nat
  flags : Nat
  ulDeviceError : Nat
  deriving DecidableEq

/-- `Session::get_ck_info`. -/
def Session.get_ck_info (s : Session) : CK_SESSION_INFO :=
  { slotID := s.slot_id
    state := s.state
    flags := s.flags
    ulDeviceError := s.device_error }

/-- `Session::fetch_key`: remote get-by-id; failure maps to
`CKR_DEVICE_ERROR`; success converts the record and inserts it into the
cache under a fresh handle.  Returns (result, new session, remote calls). -/
def Session.fetch_key (s : Session) (key_id : Str) :
    Except Nat (Nat × Object) × Session × List ApiCall :=
  match s.slot.api_config.keys_key_id_get key_id with
  | none => (.error CKR_DEVICE_ERROR, s, [.keys_key_id_get key_id])
  | some key_data =>
    let object := Object.from_key_data key_data key_id
    let hd := s.db.add_object object
    (.ok (hd.1, object), { s with db := hd.2 }, [.keys_key_id_get key_id])

/-- The `for key in keys` loop of `Session::fetch_all_keys`: resolve each
listed key in order, appending its handle; the first failure aborts with
that error, keeping the session state reached so far. -/
def Session.fetch_keys_loop (s : Session) :
    List Str → List Nat → List ApiCall →
    Except Nat (List Nat) × Session × List ApiCall
  | [], handles, trace => (.ok handles, s, trace)
  | k :: rest, handles, trace =>
    match s.fetch_key k with
    | (.ok ho, s2, tr) =>
      Session.fetch_keys_loop s2 rest (handles ++ [ho.1]) (trace ++ tr)
    | (.error e, s2, tr) => (.error e, s2, trace ++ tr)

/-- `Session::fetch_all_keys`: if the cache-completeness flag is set, reuse
the cache's handles in cache order with no remote call; otherwise clear the
cache, list the remote keys, and resolve each in order. -/
def Session.fetch_all_keys (s : Session) :
    Except Nat (List Nat) × Session × List ApiCall :=
  if s.fetched_all_keys then
    (.ok (s.db.enumerate.map Prod.fst), s, [])
  else
    let s1 : Session := { s with db := s.db.clear }
    match s1.slot.api_config.keys_get with
    | none => (.error CKR_DEVICE_ERROR, s1, [.keys_get])
    | some keys => s1.fetch_keys_loop keys [] [.keys_get]

/-- `Session::find_key`: a present filter resolves a single key, an absent
filter resolves all keys. -/
def Session.find_key (s : Session) (key_id : Option Str) :
    Except Nat (List Nat) × Session × List ApiCall :=
  match key_id with
  | some kid =>
    match s.fetch_key kid with
    | (.ok ho, s2, tr) => (.ok [ho.1], s2, tr)
    | (.error e, s2, tr) => (.error e, s2, tr)
  | none => s.fetch_all_keys

/-- `Session::enum_init`: fail with `CKR_OPERATION_ACTIVE` if a search
context exists; parse the filter; resolve it; on success store the handle
sequence as the new search context.  Returns (return value, new session,
remote calls). -/
def Session.enum_init (s : Session) (template : Option CkRawAttrTemplate) :
    Nat × Session × List ApiCall :=
  if s.enum_ctx.isSome then
    (CKR_OPERATION_ACTIVE, s, [])
  else
    match find_key_id template with
    | .error e => (e, s, [])
    | .ok key_id =>
      match s.find_key key_id with
      | (.ok handles, s2, tr) =>
        (CKR_OK, { s2 with enum_ctx := some ⟨handles⟩ }, tr)
      | (.error e, s2, tr) => (e, s2, tr)

/-- `SessionManager`: the handle-indexed session table, modelled as an
association list (the Rust `HashMap` guarantees key uniqueness; theorems
that need it take it as a hypothesis), plus the allocation counter. -/
structure SessionManager where
  sessions : List (Nat × Session)
  next_session_handle : Nat

/-- `SessionManager::new`. -/
def SessionManager.new : SessionManager :=
  { sessions := [], next_session_handle := 1 }

/-- `HashMap::insert`: replace the value when the key is present, otherwise
add the entry. -/
def hmInsert (l : List (Nat × Session)) (k : Nat) (v : Session) :
    List (Nat × Session) :=
  if l.any (fun p => p.1 == k) then
    l.map (fun p => if p.1 == k then (k, v) else p)
  else
    l ++ [(k, v)]

/-- `HashMap::get`: the entry with the given key, if any. -/
def hmGet (l : List (Nat × Session)) (k : Nat) : Option Session :=
  match l with
  | [] => none
  | p :: rest => if p.1 = k then some p.2 else hmGet rest k

/-- `HashMap::remove`: drop the entry with the given key. -/
def hmRemove (l : List (Nat × Session)) (k : Nat) : List (Nat × Session) :=
  l.filter (fun p => !(p.1 == k))

/-- `SessionManager::create_session`: construct a fresh session, store it
under the next counter value, bump the counter, return the handle. -/
def SessionManager.create_session (m : SessionManager) (slot_id : Nat)
    (slot : Slot) (flags : Nat) : Nat × SessionManager :=
  let session := Session.new slot_id slot flags
  let handle := m.next_session_handle
  (handle,
   { sessions := hmInsert m.sessions handle session
     next_session_handle := m.next_session_handle + 1 })

/-- `SessionManager::get_session`. -/
def SessionManager.get_session (m : SessionManager) (handle : Nat) :
    Option Session :=
  hmGet m.sessions handle

/-- `SessionManager::delete_session`: remove and return the entry. -/
def SessionManager.delete_session (m : SessionManager) (handle : Nat) :
    Option (Nat × Session) × SessionManager :=
  (match m.get_session handle with
   | some s => some (handle, s)
   | none => none,
   { m with sessions := hmRemove m.sessions handle })

/-- `SessionManager::delete_all_slot_sessions`: collect the handles of every
session whose slot id matches, then remove each collected handle. -/
def SessionManager.delete_all_slot_sessions (m : SessionManager)
    (slot_id : Nat) : SessionManager :=
  let deleted :=
    (m.sessions.filter (fun p => p.2.slot_id == slot_id)).map Prod.fst
  { m with sessions := deleted.foldl (fun ss h => hmRemove ss h) m.sessions }

/-! Helper notions and lemmas about the attribute filter parser. -/

/-- Whether `parse_str_from_attr` succeeds on an attribute. -/
def parseOk (attr : CkRawAttr) : Bool :=
  match parse_str_from_attr attr with
  | .ok _ => true
  | .error _ => false

theorem parseOk_iff (attr : CkRawAttr) :
    parseOk attr = true ↔ ∃ s, parse_str_from_attr attr = .ok s := by
  unfold parseOk
  cases h : parse_str_from_attr attr with
  | ok s => simp
  | error e => simp

/-- Scanning a block that contains no `CKA_ID` entry and whose `CKA_LABEL`
entries all parse only updates the remembered candidate: the scan continues
into the remainder of the template with some candidate. -/
theorem find_key_id_loop_append (pre : List CkRawAttr)
    (hid : ∀ x ∈ pre, x.type_ ≠ CKA_ID)
    (hlab : ∀ x ∈ pre, x.type_ = CKA_LABEL → parseOk x = true) :
    ∀ (l : List CkRawAttr) (acc : Option Str), ∃ acc2,
      find_key_id_loop (pre ++ l) acc = find_key_id_loop l acc2 := by
  induction pre with
  | nil => intro l acc; exact ⟨acc, rfl⟩
  | cons a pre ih =>
    intro l acc
    have ha : ¬ a.type_ = CKA_ID := hid a (by simp)
    by_cases hl : a.type_ = CKA_LABEL
    · obtain ⟨s, hs⟩ := (parseOk_iff a).mp (hlab a (by simp) hl)
      obtain ⟨acc2, h2⟩ :=
        ih (fun x hx => hid x (by simp [hx])) (fun x hx => hlab x (by simp [hx]))
          l (some s)
      refine ⟨acc2, ?_⟩
      simpa [find_key_id_loop, ha, hl, hs] using h2
    · obtain ⟨acc2, h2⟩ :=
        ih (fun x hx => hid x (by simp [hx])) (fun x hx => hlab x (by simp [hx]))
          l acc
      refine ⟨acc2, ?_⟩
      simpa [find_key_id_loop, ha, hl] using h2

/-- Scanning a block with no recognized (`CKA_ID` or `CKA_LABEL`) entries
returns the current candidate unchanged. -/
theorem find_key_id_loop_unrecognized (l : List CkRawAttr)
    (h : ∀ x ∈ l, x.type_ ≠ CKA_ID ∧ x.type_ ≠ CKA_LABEL) :
    ∀ acc, find_key_id_loop l acc = .ok acc := by
  induction l with
  | nil => intro acc; rfl
  | cons a l ih =>
    intro acc
    obtain ⟨ha1, ha2⟩ := h a (by simp)
    have := ih (fun x hx => h x (by simp [hx])) acc
    simpa [find_key_id_loop, ha1, ha2] using this

/-- C2 counterexample: on the template `[LABEL "a", LABEL "b"]` (no ID entry,
two LABEL entries, both decodable), `find_key_id` returns the text of the
second LABEL entry, not the first: the later LABEL overwrites the earlier
remembered candidate. -/
theorem c2_counterexample :
    find_key_id (some [⟨CKA_LABEL, some [97]⟩, ⟨CKA_LABEL, some [98]⟩]) =
      .ok (some [98]) ∧ ([98] : Str) ≠ [97] := by
  constructor
  · rfl
  · decide

/-- C2 (amended): for every template with no ID entry whose LABEL entries
all decode as text, the Attribute Filter Parser returns the decoded text of
the LAST LABEL entry: a later LABEL overwrites the earlier remembered
candidate. -/
theorem c2_last_label_wins (pre post : List CkRawAttr) (lab : CkRawAttr)
    (s : Str)
    (hid : ∀ x ∈ pre, x.type_ ≠ CKA_ID)
    (hlab : ∀ x ∈ pre, x.type_ = CKA_LABEL → parseOk x = true)
    (hl : lab.type_ = CKA_LABEL) (hs : parse_str_from_attr lab = .ok s)
    (hpost : ∀ x ∈ post, x.type_ ≠ CKA_ID ∧ x.type_ ≠ CKA_LABEL) :
    find_key_id (some (pre ++ lab :: post)) = .ok (some s) := by
  obtain ⟨acc2, h2⟩ := find_key_id_loop_append pre hid hlab (lab :: post) none
  have hlid : ¬ lab.type_ = CKA_ID := by
    rw [hl]; decide
  rw [find_key_id, h2]
  simp [find_key_id_loop, hlid, hl, hs, find_key_id_loop_unrecognized post hpost]

/-- C2 witness: on `[LABEL "a", LABEL "b"]` the amended claim applies and
yields the last LABEL's text `"b"`. -/
theorem c2_witness :
    find_key_id (some [⟨CKA_LABEL, some [97]⟩, ⟨CKA_LABEL, some [98]⟩]) =
      .ok (some [98]) :=
  c2_last_label_wins [⟨CKA_LABEL, some [97]⟩] [] ⟨CKA_LABEL, some [98]⟩ [98]
    (by decide) (by decide) (by decide) rfl (by decide)

/-- C7: the first `CKA_ID` entry of a template determines the parser's
result and stops the scan, overriding any earlier LABEL candidate, whatever
follows it. -/
theorem c7_first_id_wins (pre rest : List CkRawAttr) (a : CkRawAttr) (s : Str)
    (hid : ∀ x ∈ pre, x.type_ ≠ CKA_ID)
    (hlab : ∀ x ∈ pre, x.type_ = CKA_LABEL → parseOk x = true)
    (ha : a.type_ = CKA_ID) (hs : parse_str_from_attr a = .ok s) :
    find_key_id (some (pre ++ a :: rest)) = .ok (some s) := by
  obtain ⟨acc2, h2⟩ := find_key_id_loop_append pre hid hlab (a :: rest) none
  rw [find_key_id, h2]
  simp [find_key_id_loop, ha, hs]

/-- C7 witness: on `[LABEL "foo", ID "bar"]` the parser returns `"bar"`. -/
theorem c7_witness :
    find_key_id (some [⟨CKA_LABEL, some [102, 111, 111]⟩,
        ⟨CKA_ID, some [98, 97, 114]⟩]) =
      .ok (some [98, 97, 114]) :=
  c7_first_id_wins [⟨CKA_LABEL, some [102, 111, 111]⟩] []
    ⟨CKA_ID, some [98, 97, 114]⟩ [98, 97, 114]
    (by decide) (by decide) rfl rfl

/-- C9: when the scan reaches a recognized (`CKA_ID` or `CKA_LABEL`)
attribute whose raw value is missing or does not decode as text, `enum_init`
fails with `CKR_ARGUMENTS_BAD`, the session is unchanged (in particular no
search context is created), and no remote call is made. -/
theorem c9_undecodable_attr_fails (s : Session) (pre rest : List CkRawAttr)
    (bad : CkRawAttr)
    (hctx : s.enum_ctx = none)
    (hid : ∀ x ∈ pre, x.type_ ≠ CKA_ID)
    (hlab : ∀ x ∈ pre, x.type_ = CKA_LABEL → parseOk x = true)
    (hrec : bad.type_ = CKA_ID ∨ bad.type_ = CKA_LABEL)
    (hfail : parse_str_from_attr bad = .error CKR_ARGUMENTS_BAD) :
    s.enum_init (some (pre ++ bad :: rest)) = (CKR_ARGUMENTS_BAD, s, []) := by
  obtain ⟨acc2, h2⟩ := find_key_id_loop_append pre hid hlab (bad :: rest) none
  have hfk : find_key_id (some (pre ++ bad :: rest)) =
      .error CKR_ARGUMENTS_BAD := by
    rw [find_key_id, h2]
    by_cases hbid : bad.type_ = CKA_ID
    · simp [find_key_id_loop, hbid, hfail]
    · have hbl : bad.type_ = CKA_LABEL := hrec.resolve_left hbid
      simp [find_key_id_loop, hbid, hbl, hfail]
  simp [Session.enum_init, hctx, hfk]

/-- A slot whose remote service lists no keys and resolves none. -/
def slotEmpty : Slot := ⟨⟨some [], fun _ => none⟩⟩

/-- C9 witness: an `CKA_ID` attribute with a missing value fails a fresh
session's `enum_init` with `CKR_ARGUMENTS_BAD`, changes nothing and makes no
remote call. -/
theorem c9_witness :
    (Session.new 0 slotEmpty 0).enum_init (some [⟨CKA_ID, none⟩]) =
      (CKR_ARGUMENTS_BAD, Session.new 0 slotEmpty 0, []) :=
  c9_undecodable_attr_fails (Session.new 0 slotEmpty 0) [] [] ⟨CKA_ID, none⟩
    rfl (by decide) (by decide) (Or.inl rfl) rfl

/-- C3: on a session that already has a search context, `enum_init` returns
`CKR_OPERATION_ACTIVE` with the session unchanged in every field and no
remote call, whatever the template. -/
theorem c3_operation_active (s : Session) (c : EnumCtx)
    (hctx : s.enum_ctx = some c) (template : Option CkRawAttrTemplate) :
    s.enum_init template = (CKR_OPERATION_ACTIVE, s, []) := by
  simp [Session.enum_init, hctx]

/-- A session that already holds an (empty) search context. -/
def sessionBusy : Session :=
  { Session.new 0 slotEmpty 0 with enum_ctx := some ⟨[]⟩ }

/-- C3 witness: a second search-init on a busy session fails with
`CKR_OPERATION_ACTIVE` and leaves the session intact. -/
theorem c3_witness :
    sessionBusy.enum_init none = (CKR_OPERATION_ACTIVE, sessionBusy, []) :=
  c3_operation_active sessionBusy ⟨[]⟩ rfl none

/-- C10: a session built by `Session::new` starts with no active context of
any operation class, an empty object cache, the cache-completeness flag
false, device error `CKR_OK` and state `CKS_RO_PUBLIC_SESSION`, regardless
of the flags argument, and `get_ck_info` reports exactly these stored
values. -/
theorem c10_session_new_initial_state (slot_id : Nat) (slot : Slot)
    (flags : Nat) :
    (Session.new slot_id slot flags).enum_ctx = none ∧
    (Session.new slot_id slot flags).sign_ctx = none ∧
    (Session.new slot_id slot flags).encrypt_ctx = none ∧
    (Session.new slot_id slot flags).decrypt_ctx = none ∧
    (Session.new slot_id slot flags).db = Db.new ∧
    (Session.new slot_id slot flags).db.objects = [] ∧
    (Session.new slot_id slot flags).fetched_all_keys = false ∧
    (Session.new slot_id slot flags).device_error = CKR_OK ∧
    (Session.new slot_id slot flags).state = CKS_RO_PUBLIC_SESSION ∧
    (Session.new slot_id slot flags).get_ck_info =
      ⟨slot_id, CKS_RO_PUBLIC_SESSION, flags, CKR_OK⟩ :=
  ⟨rfl, rfl, rfl, rfl, rfl, rfl, rfl, rfl, rfl, rfl⟩

/-- A slot whose remote service lists one key `"k"` and resolves it. -/
def slotOneKey : Slot :=
  ⟨⟨some [[107]], fun k => if k = [107] then some 5 else none⟩⟩

/-- C1 (code bug): after an all-keys search-init in which the full fetch
succeeds for every listed key (it returns `CKR_OK`), the session's
cache-completeness flag is still `false` — `fetch_all_keys` never sets it —
so a subsequent all-keys search-init (after the first context is discarded)
performs the remote list and get calls again instead of reusing the
cache. -/
theorem c1_flag_never_set :
    ((Session.new 0 slotOneKey 0).enum_init none).1 = CKR_OK ∧
    ((Session.new 0 slotOneKey 0).enum_init none).2.1.fetched_all_keys =
      false ∧
    ({ ((Session.new 0 slotOneKey 0).enum_init none).2.1 with
        enum_ctx := none }.enum_init none).2.2 =
      [ApiCall.keys_get, ApiCall.keys_key_id_get [107]] :=
  ⟨rfl, rfl, rfl⟩

/-- C6: when the parsed filter is a present key id, `enum_init` performs
exactly one remote get-by-id call; on success the new search context holds
exactly the freshly assigned handle of the newly cached object; on failure
the call returns `CKR_DEVICE_ERROR` and the session is unchanged, so no
search context is created. -/
theorem c6_single_key (s : Session) (t : Option CkRawAttrTemplate) (kid : Str)
    (hctx : s.enum_ctx = none)
    (hkid : find_key_id t = .ok (some kid)) :
    (s.enum_init t).2.2 = [ApiCall.keys_key_id_get kid] ∧
    (∀ kd, s.slot.api_config.keys_key_id_get kid = some kd →
      s.enum_init t =
        (CKR_OK,
         { s with
            db := (s.db.add_object (Object.from_key_data kd kid)).2
            enum_ctx :=
              some ⟨[(s.db.add_object (Object.from_key_data kd kid)).1]⟩ },
         [ApiCall.keys_key_id_get kid])) ∧
    (s.slot.api_config.keys_key_id_get kid = none →
      s.enum_init t = (CKR_DEVICE_ERROR, s, [ApiCall.keys_key_id_get kid])) := by
  refine ⟨?_, ?_, ?_⟩
  · cases hapi : s.slot.api_config.keys_key_id_get kid with
    | none =>
      simp [Session.enum_init, hctx, hkid, Session.find_key, Session.fetch_key,
        hapi]
    | some kd =>
      simp [Session.enum_init, hctx, hkid, Session.find_key, Session.fetch_key,
        hapi]
  · intro kd hapi
    simp [Session.enum_init, hctx, hkid, Session.find_key, Session.fetch_key,
      hapi]
  · intro hapi
    simp [Session.enum_init, hctx, hkid, Session.find_key, Session.fetch_key,
      hapi]

/-- A slot whose remote service resolves only the key `"k1"`. -/
def slotK1 : Slot :=
  ⟨⟨some [[107, 49]], fun k => if k = [107, 49] then some 1 else none⟩⟩

/-- C6 witness: on a fresh session, a template containing only `ID="k1"`
resolves `k1` remotely and yields the single fresh handle `0` as the whole
search context. -/
theorem c6_witness :
    (Session.new 0 slotK1 0).enum_init (some [⟨CKA_ID, some [107, 49]⟩]) =
      (CKR_OK,
       { Session.new 0 slotK1 0 with
          db := ((Session.new 0 slotK1 0).db.add_object
            (Object.from_key_data 1 [107, 49])).2
          enum_ctx :=
            some ⟨[((Session.new 0 slotK1 0).db.add_object
              (Object.from_key_data 1 [107, 49])).1]⟩ },
       [ApiCall.keys_key_id_get [107, 49]]) :=
  (c6_single_key (Session.new 0 slotK1 0) (some [⟨CKA_ID, some [107, 49]⟩])
    [107, 49] rfl rfl).2.1 1 rfl

/-- The loop of `fetch_all_keys` fails with `CKR_DEVICE_ERROR` at the first
key whose remote get fails, leaving exactly the objects resolved before it
in the cache. -/
theorem fetch_keys_loop_error (bad : Str) (rest : List Str)
    (f : Str → KeyData) :
    ∀ (ks : List Str) (s : Session) (handles : List Nat)
      (trace : List ApiCall),
      (∀ k ∈ ks, s.slot.api_config.keys_key_id_get k = some (f k)) →
      s.slot.api_config.keys_key_id_get bad = none →
      s.fetch_keys_loop (ks ++ bad :: rest) handles trace =
        (.error CKR_DEVICE_ERROR,
         { s with
            db := ks.foldl
              (fun d k => (d.add_object (Object.from_key_data (f k) k)).2)
              s.db },
         trace ++ ks.map ApiCall.keys_key_id_get ++
           [ApiCall.keys_key_id_get bad]) := by
  intro ks
  induction ks with
  | nil =>
    intro s handles trace _ hbad
    simp [Session.fetch_keys_loop, Session.fetch_key, hbad]
  | cons k ks ih =>
    intro s handles trace hok hbad
    have hk : s.slot.api_config.keys_key_id_get k = some (f k) :=
      hok k (by simp)
    have step :
        s.fetch_keys_loop ((k :: ks) ++ bad :: rest) handles trace =
          Session.fetch_keys_loop
            { s with
               db := (s.db.add_object (Object.from_key_data (f k) k)).2 }
            (ks ++ bad :: rest) (handles ++ [(s.db.add_object
              (Object.from_key_data (f k) k)).1])
            (trace ++ [ApiCall.keys_key_id_get k]) := by
      simp [Session.fetch_keys_loop, Session.fetch_key, hk]
    have ih2 := ih
      { s with db := (s.db.add_object (Object.from_key_data (f k) k)).2 }
      (handles ++ [(s.db.add_object (Object.from_key_data (f k) k)).1])
      (trace ++ [ApiCall.keys_key_id_get k])
      (fun x hx => hok x (by simp [hx])) hbad
    rw [step, ih2]
    simp [List.foldl_cons, List.append_assoc]

/-- C5: an all-keys search-init whose full fetch fails on some key returns
`CKR_DEVICE_ERROR`, creates no search context, and leaves the cache exactly
as it was at the failure: cleared, then repopulated with the objects of the
keys resolved before the failing one, in order. -/
theorem c5_full_fetch_failure (s : Session) (t : Option CkRawAttrTemplate)
    (okKeys rest : List Str) (bad : Str) (f : Str → KeyData)
    (hctx : s.enum_ctx = none)
    (hflag : s.fetched_all_keys = false)
    (hkid : find_key_id t = .ok none)
    (hlist : s.slot.api_config.keys_get = some (okKeys ++ bad :: rest))
    (hok : ∀ k ∈ okKeys, s.slot.api_config.keys_key_id_get k = some (f k))
    (hbad : s.slot.api_config.keys_key_id_get bad = none) :
    s.enum_init t =
      (CKR_DEVICE_ERROR,
       { s with
          db := okKeys.foldl
            (fun d k => (d.add_object (Object.from_key_data (f k) k)).2)
            s.db.clear },
       ApiCall.keys_get :: (okKeys.map ApiCall.keys_key_id_get ++
         [ApiCall.keys_key_id_get bad])) ∧
    (s.enum_init t).2.1.enum_ctx = none := by
  have hloop := fetch_keys_loop_error bad rest f okKeys
    { s with db := s.db.clear } [] [ApiCall.keys_get] hok hbad
  simp [hflag, hctx] at hloop
  have hmain : s.enum_init t =
      (CKR_DEVICE_ERROR,
       { s with
          db := okKeys.foldl
            (fun d k => (d.add_object (Object.from_key_data (f k) k)).2)
            s.db.clear },
       ApiCall.keys_get :: (okKeys.map ApiCall.keys_key_id_get ++
         [ApiCall.keys_key_id_get bad])) := by
    simp [Session.enum_init, hctx, hkid, Session.find_key,
      Session.fetch_all_keys, hflag, hlist, hloop]
  exact ⟨hmain, by rw [hmain]; exact hctx⟩

/-- A slot whose remote service lists the keys `"a"` and `"b"` but resolves
only `"a"`. -/
def slotC5 : Slot :=
  ⟨⟨some [[97], [98]], fun k => if k = [97] then some 1 else none⟩⟩

/-- C5 witness: with remote keys `["a", "b"]` where the get for `"b"`
fails, a fresh session's all-keys search-init fails with
`CKR_DEVICE_ERROR`, creates no context, and keeps the object cached for
`"a"`. -/
theorem c5_witness :
    (Session.new 0 slotC5 0).enum_init none =
      (CKR_DEVICE_ERROR,
       { Session.new 0 slotC5 0 with
          db := [[97]].foldl
            (fun d k => (d.add_object (Object.from_key_data 1 k)).2)
            (Session.new 0 slotC5 0).db.clear },
       ApiCall.keys_get :: ([[97]].map ApiCall.keys_key_id_get ++
         [ApiCall.keys_key_id_get [98]])) ∧
    ((Session.new 0 slotC5 0).enum_init none).2.1.enum_ctx = none :=
  c5_full_fetch_failure (Session.new 0 slotC5 0) none [[97]] [] [98]
    (fun _ => 1) rfl rfl rfl rfl (by decide) rfl

/-- A session-manager operation, for stating handle-allocation invariants
over arbitrary operation sequences. -/
inductive MgrOp where
  | create : Nat → Slot → Nat → MgrOp
  | delete : Nat → MgrOp
  | deleteAll : Nat → MgrOp

/-- Run a sequence of manager operations, collecting the handles returned
by the `create_session` calls, in order. -/
def runOps : SessionManager → List MgrOp → SessionManager × List Nat
  | m, [] => (m, [])
  | m, MgrOp.create sid slot fl :: rest =>
    let hm := m.create_session sid slot fl
    let r := runOps hm.2 rest
    (r.1, hm.1 :: r.2)
  | m, MgrOp.delete h :: rest => runOps (m.delete_session h).2 rest
  | m, MgrOp.deleteAll sid :: rest =>
    runOps (m.delete_all_slot_sessions sid) rest

/-- Invariant: over any operation sequence the allocation counter never
decreases, every issued handle lies between the starting counter and the
final counter, and the issued handles are strictly increasing. -/
theorem runOps_counter (ops : List MgrOp) : ∀ m : SessionManager,
    m.next_session_handle ≤ (runOps m ops).1.next_session_handle ∧
    (∀ h ∈ (runOps m ops).2,
      m.next_session_handle ≤ h ∧
      h < (runOps m ops).1.next_session_handle) ∧
    (runOps m ops).2.Pairwise (· < ·) := by
  induction ops with
  | nil => intro m; simp [runOps]
  | cons op rest ih =>
    intro m
    cases op with
    | create sid slot fl =>
      obtain ⟨ih1, ih2, ih3⟩ := ih (m.create_session sid slot fl).2
      have hnext : (m.create_session sid slot fl).2.next_session_handle =
          m.next_session_handle + 1 := rfl
      have hrun : runOps m (MgrOp.create sid slot fl :: rest) =
          ((runOps (m.create_session sid slot fl).2 rest).1,
           m.next_session_handle ::
             (runOps (m.create_session sid slot fl).2 rest).2) := rfl
      rw [hnext] at ih1 ih2
      simp only [hrun]
      refine ⟨by omega, ?_, ?_⟩
      · intro h hh
        rcases List.mem_cons.mp hh with hh | hh
        · subst hh; exact ⟨Nat.le_refl _, by omega⟩
        · have := ih2 h hh
          exact ⟨by omega, this.2⟩
      · refine List.pairwise_cons.mpr ⟨?_, ih3⟩
        intro h hh
        have := ih2 h hh
        omega
    | delete h => exact ih (m.delete_session h).2
    | deleteAll sid => exact ih (m.delete_all_slot_sessions sid)

/-- C4: session handles are allocated by a monotonically increasing counter
starting at 1 and never reused: over every sequence of create, delete and
delete-all-slot operations the handles returned by the create calls are
strictly increasing, and the final allocation counter strictly exceeds
every handle ever issued. -/
theorem c4_handles_monotone (ops : List MgrOp) :
    SessionManager.new.next_session_handle = 1 ∧
    (runOps SessionManager.new ops).2.Pairwise (· < ·) ∧
    ∀ h ∈ (runOps SessionManager.new ops).2,
      h < (runOps SessionManager.new ops).1.next_session_handle := by
  obtain ⟨h1, h2, h3⟩ := runOps_counter ops SessionManager.new
  exact ⟨rfl, h3, fun h hh => (h2 h hh).2⟩

/-- A concrete operation sequence: two creates, a delete, a third create. -/
def opsW : List MgrOp :=
  [MgrOp.create 0 slotEmpty 0, MgrOp.create 1 slotEmpty 0,
   MgrOp.delete 1, MgrOp.create 0 slotEmpty 0]

/-- C4 witness: handle 1, issued by the first create of the concrete
sequence, stays strictly below the final allocation counter even after a
delete. -/
theorem c4_witness :
    1 < (runOps SessionManager.new opsW).1.next_session_handle :=
  (c4_handles_monotone opsW).2.2 1 (by decide)

/-- Removing the collected handles one by one is the same as filtering out
every pair whose key lies in the collected list. -/
theorem foldl_hmRemove (hs : List Nat) :
    ∀ l : List (Nat × Session),
      hs.foldl (fun ss h => hmRemove ss h) l =
        l.filter (fun p => decide (p.1 ∉ hs)) := by
  induction hs with
  | nil =>
    intro l
    simp [List.foldl_nil]
  | cons h hs ih =>
    intro l
    rw [List.foldl_cons, ih (hmRemove l h)]
    unfold hmRemove
    rw [List.filter_filter]
    apply List.filter_congr
    intro p hp
    by_cases h1 : p.1 = h <;> by_cases h2 : p.1 ∈ hs <;> simp [h1, h2]

/-- C8: `delete_all_slot_sessions` removes exactly the sessions of the
given slot: a (handle, session) pair survives the call iff it was in the
table before and its slot id differs from the targeted slot, so sessions of
other slots are untouched. -/
theorem c8_delete_all_slot_sessions (m : SessionManager) (S : Nat)
    (hnd : (m.sessions.map Prod.fst).Nodup) (p : Nat × Session) :
    p ∈ (m.delete_all_slot_sessions S).sessions ↔
      p ∈ m.sessions ∧ p.2.slot_id ≠ S := by
  have hses : (m.delete_all_slot_sessions S).sessions =
      m.sessions.filter (fun q => decide (q.1 ∉
        (m.sessions.filter (fun r => r.2.slot_id == S)).map Prod.fst)) := by
    simp only [SessionManager.delete_all_slot_sessions]
    exact foldl_hmRemove _ m.sessions
  rw [hses, List.mem_filter]
  simp only [decide_eq_true_eq]
  constructor
  · rintro ⟨hp, hq⟩
    refine ⟨hp, fun hS => hq ?_⟩
    exact List.mem_map_of_mem Prod.fst
      (List.mem_filter.mpr ⟨hp, by simp [hS]⟩)
  · rintro ⟨hp, hS⟩
    refine ⟨hp, fun hmem => ?_⟩
    obtain ⟨q, hq, hq1⟩ := List.mem_map.mp hmem
    obtain ⟨hq2, hq3⟩ := List.mem_filter.mp hq
    have hqp : q = p :=
      List.inj_on_of_nodup_map hnd hq2 hp hq1
    apply hS
    rw [← hqp]
    simpa using hq3

/-- A manager holding session 1 on slot 0 and session 2 on slot 1. -/
def mgrW : SessionManager :=
  (((SessionManager.new).create_session 0 slotEmpty 0).2.create_session 1
    slotEmpty 0).2

/-- C8 witness: bulk-closing slot 0 on the concrete two-session manager
keeps the slot-1 session (handle 2) untouched. -/
theorem c8_witness :
    (⟨2, Session.new 1 slotEmpty 0⟩ : Nat × Session) ∈
        (mgrW.delete_all_slot_sessions 0).sessions ↔
      (⟨2, Session.new 1 slotEmpty 0⟩ : Nat × Session) ∈ mgrW.sessions ∧
        (Session.new 1 slotEmpty 0).slot_id ≠ 0 :=
  c8_delete_all_slot_sessions mgrW 0 (by decide)
    ⟨2, Session.new 1 slotEmpty 0⟩

end NetHsm
